import Mathlib

/-!
# assh: resolution and disambiguation pipeline

A shallow embedding of `cmd/ssh.go` and `cmd/errors.go`.

Go strings are modelled as `String` (sequences of Unicode characters, i.e. valid
UTF-8 text).  The external collaborators (provider connection, provider query,
list picker, remote session, relative-time rendering) are the fields of `World`;
every call to one of them is recorded as an `Event`, so that a run of a command
is the list of calls it made together with the value it returned.

Provider data follows the data model of the specification: an instance has a name
tag, role tag and profile tag only if such a tag is in its tag list, it always has an
identifier, a type, a state and a launch time, and it may lack a private address.
Pointers that the Go functions hand to each other are kept as `Option` values
(`getValueFromTags` returns a `*string`), and a dereference is the function `deref`,
which panics on `nil`; index expressions panic when out of range.
-/

namespace Assh

/-! ## Provider data -/

/-- Modelled from the spec: the declaration of the provider's tag type (`ec2.Tag`) is
not part of the sources.  A tag is a key/value pair, and the provider fills in both
for every tag it returns, so neither is a nullable pointer here; a tag that an
instance lacks is simply not in its tag list. -/
structure Tag where
  Key : String
  Value : String
deriving DecidableEq, Repr

/-- Modelled from the spec: lifecycle state of an instance (`ec2.InstanceState`),
of which the sources read the name only. -/
structure InstanceState where
  Name : String
deriving DecidableEq, Repr

/-- Modelled from the spec: the declaration of the provider's instance type
(`ec2.Instance`) is not part of the sources.  The provider fills in the identifier,
the type, the state and the launch time of every instance it returns, and the sources
dereference them without a test; the private network address is the one attribute
that may be absent (`none` is Go's `nil`), and the sources test it in the list view.
The launch time is a point in time, given here as a number of seconds. -/
structure Instance where
  Tags : List Tag
  InstanceId : String
  PrivateIpAddress : Option String
  InstanceType : String
  State : InstanceState
  LaunchTime : Int
deriving DecidableEq, Repr

/-- Modelled from the spec: a group of instances in a provider result
(`ec2.Reservation`). -/
structure Reservation where
  Instances : List Instance
deriving DecidableEq, Repr

/-- Modelled from the spec: a provider query result (`ec2.DescribeInstancesOutput`),
organised as nested groups. -/
structure DescribeInstancesOutput where
  Reservations : List Reservation
deriving DecidableEq, Repr

/-- Modelled from the spec: a provider query constraint (`ec2.Filter`): a name and
the values it may take. -/
structure Filter where
  Name : String
  Values : List String
deriving DecidableEq, Repr

/-! ## Errors, panics, events -/

/-- The error values a command can return.  `invalidCommand` is `*invalidCommandError`
of `errors.go`; `notFound` is `errors.New("no instances found")`; the other four carry
the error value handed back by a collaborator. -/
inductive Error where
  | invalidCommand (message : String) (Help : String)
  | notFound
  | connection (e : String)
  | query (e : String)
  | selection (e : String)
  | session (e : String)
deriving DecidableEq, Repr

/-- Run-time panics of the Go program. -/
inductive Panic where
  | nilDereference
  | indexOutOfRange
deriving DecidableEq, Repr

/-- The value a command hands back: Go's `nil` error, an error, or a panic. -/
inductive Result where
  | ok
  | err (e : Error)
  | panic (p : Panic)
deriving DecidableEq, Repr

/-- The calls made to the collaborators, and what is printed. -/
inductive Event where
  | connect (env : String)
  | describe (env : String) (filters : List Filter)
  | print (text : String)
  | prompt (label : String) (items : List String)
  | ssh (address : String)
deriving DecidableEq, Repr

/-- A run of a command: the events in the order they happened, and the result. -/
structure Run where
  events : List Event
  result : Result
deriving DecidableEq, Repr

/-- The external collaborators.
* `newEC2Client env` is `none` when a connection scoped to `env` is established
  (the client is then identified by `env`), and the error otherwise;
* `describeInstances env filters` is `client.DescribeInstances` on that client;
* `promptRun label items` is `promptui.Select.Run`: the chosen row index or an error;
* `sshRun address` is `exec.Command("ssh", address).Run()`: `none` when the session
  ended without error;
* `humanizeTime` is `humanize.Time`. -/
structure World where
  newEC2Client : String → Option String
  describeInstances : String → List Filter → Except String DescribeInstancesOutput
  promptRun : String → List String → Except String Nat
  sshRun : String → Option String
  humanizeTime : Int → String

/-! ## errors.go -/

/-- The fixed usage text of `newInvalidCommandError`. -/
def usageText : String :=
  "Usage:\n\tassh instanceId\n\tassh environment role [profile]\n\nFor example:\n\tassh i-036e822ed4ec8c585\n\tassh dev gaf_appserver\n\tassh dev gaf_appserver php72"

/-- `newInvalidCommandError` of `errors.go`. -/
def newInvalidCommandError : Error :=
  Error.invalidCommand "invalid command" usageText

/-! ## Filters -/

/-- `envsToSearch` of `ssh.go`. -/
def envsToSearch : List String := ["prod", "dev", "stg", "sandbox"]

/-- `getInstanceIDFilters` of `ssh.go`. -/
def getInstanceIDFilters (instanceID : String) : List Filter :=
  let key := "instance-id"
  [{ Name := key, Values := [instanceID] }]

/-- `getRoleProfileFilters` of `ssh.go`. -/
def getRoleProfileFilters (role profile : String) : List Filter :=
  let role := "*" ++ role ++ "*"
  let tagKeyRole := "tag:role"
  let filters : List Filter := [{ Name := tagKeyRole, Values := [role] }]
  if profile ≠ "" then
    let tagKeyProfile := "tag:profile"
    filters ++ [{ Name := tagKeyProfile, Values := [profile] }]
  else
    filters

/-! ## Tags -/

/-- `getValueFromTags` of `ssh.go`.  The Go function returns a `*string`: `some v` is
a pointer to `v`, `none` would be `nil`. -/
def getValueFromTags : List Tag → String → Option String
  | [], _ => some ""
  | tag :: tags, key =>
    if tag.Key = key then some tag.Value else getValueFromTags tags key

/-- Dereference of a Go pointer: a `nil` pointer panics. -/
def deref {α : Type} : Option α → Except Panic α
  | some a => Except.ok a
  | none => Except.error Panic.nilDereference

/-- `formatRoleProfileFromTags` of `ssh.go`. -/
def formatRoleProfileFromTags (tags : List Tag) : Except Panic String :=
  let role := getValueFromTags tags "role"
  let profile := getValueFromTags tags "profile"
  match profile with
  | some p =>
    if p ≠ "" then
      match deref role with
      | Except.ok r => Except.ok (r ++ "/" ++ p)
      | Except.error e => Except.error e
    else deref role
  | none => deref role

/-! ## text/tabwriter

The writer is used as `tabwriter.NewWriter(buf, 0, 0, 1, ' ', 0)`: minimal cell width
0, padding 1, padding character blank, no flags (cells are left-aligned, empty columns
are kept, no HTML filtering).  Text is split into cells terminated by a horizontal or
vertical tab, and into lines terminated by a newline or a form feed.  The last cell of
a line belongs to no column.  Tab-terminated cells in the same position of contiguous
lines make up a column block, and every cell of a block is padded to the width of the
widest cell of the block plus the padding.  The byte `0xff` that starts an escaped
segment cannot occur in valid UTF-8 text. -/

/-- A cell is its text; its width is the number of characters. -/
abbrev Cell := List Char

/-- A line is the list of its cells. -/
abbrev Line := List Cell

/-- A line has a cell in column `column` when that cell is not the last one of the
line (Go: `column < len(line)-1`). -/
def hasCell (column : Nat) (line : Line) : Bool :=
  decide (column + 1 < line.length)

/-- Width of the column block that starts with the first of `lines`: the widest cell
plus the padding over the leading lines that have a cell in `column`. -/
def blockWidth (column : Nat) : List Line → Nat
  | [] => 0
  | line :: lines =>
    if hasCell column line then
      max ((line.getD column []).length + 1) (blockWidth column lines)
    else 0

/-- Widths of the columns of the first of `lines`, given the widths `prev` of the
columns of the line before it: a column that the line before has too continues that
block; any other column starts a new block. -/
def columnWidths (prev : List Nat) (lines : List Line) : List Nat :=
  match lines with
  | [] => []
  | line :: _ =>
    (List.range (line.length - 1)).map fun column =>
      match prev.get? column with
      | some width => width
      | none => blockWidth column lines

/-- One formatted line: every cell that has a width is padded to it with blanks, the
remaining (last) cell is written as it is. -/
def writeLine : List Nat → Line → List Char
  | _, [] => []
  | [], cell :: cells => cell ++ writeLine [] cells
  | width :: widths, cell :: cells =>
    cell ++ List.replicate (width - cell.length) ' ' ++ writeLine widths cells

/-- The formatted lines of a buffer. -/
def formatLines (prev : List Nat) : List Line → List (List Char)
  | [] => []
  | line :: lines =>
    let widths := columnWidths prev (line :: lines)
    writeLine widths line :: formatLines widths lines

/-- What a flush writes: every formatted line but the last is followed by a newline. -/
def writeBuffer : List (List Char) → List Char
  | [] => []
  | [line] => line
  | line :: lines => line ++ '\n' :: writeBuffer lines

/-- State of a `tabwriter.Writer`: what has been written to the underlying buffer,
the complete lines not yet formatted, the cells of the line being read and the text
of the cell being read. -/
structure Writer where
  output : List Char
  lines : List Line
  line : Line
  cell : Cell
deriving DecidableEq, Repr

/-- `tabwriter.NewWriter(buf, 0, 0, 1, ' ', 0)` on an empty buffer. -/
def Writer.new : Writer := { output := [], lines := [], line := [], cell := [] }

/-- `Writer.Flush`: the cell being read is added to its line when it is not empty,
the buffered lines are formatted and written, and the writer is reset. -/
def Writer.flush (b : Writer) : Writer :=
  let last : Line := if b.cell ≠ [] then b.line ++ [b.cell] else b.line
  { output := b.output ++ writeBuffer (formatLines [] (b.lines ++ [last])),
    lines := [], line := [], cell := [] }

/-- `Writer.Write` on one character.  A tab ends the cell; a newline or a form feed
ends the cell and the line, and the buffer is flushed after a form feed and after a
line of a single cell. -/
def Writer.write1 (b : Writer) (ch : Char) : Writer :=
  if ch = '\t' ∨ ch = Char.ofNat 11 then
    { b with line := b.line ++ [b.cell], cell := [] }
  else if ch = '\n' ∨ ch = Char.ofNat 12 then
    let line := b.line ++ [b.cell]
    let b1 : Writer := { b with lines := b.lines ++ [line], line := [], cell := [] }
    if ch = Char.ofNat 12 ∨ line.length = 1 then b1.flush else b1
  else
    { b with cell := b.cell ++ [ch] }

/-- `Writer.Write` on a text. -/
def Writer.write (b : Writer) (text : List Char) : Writer :=
  text.foldl Writer.write1 b

/-- The content of the buffer after `text` has been written to a new writer and the
writer has been flushed. -/
def tabwrite (text : String) : String :=
  String.mk ((Writer.new.write text.data).flush).output

/-- `strings.Split(s, "\n")` on the characters of `s`. -/
def splitNewline : List Char → List (List Char)
  | [] => [[]]
  | c :: cs =>
    if c = '\n' then [] :: splitNewline cs
    else
      match splitNewline cs with
      | [] => [[c]]
      | piece :: pieces => (c :: piece) :: pieces

/-- `strings.Split(s, "\n")`. -/
def stringsSplitNewline (s : String) : List String :=
  (splitNewline s.data).map String.mk

/-! ## Presenter -/

/-- The header line of the list view. -/
def listHeader : String := "Name\tInstanceID\tPrivateIP\tRole\tType\tState\tUptime"

/-- The address of the list view: the private address, or the marker `N/A`. -/
def privateIPOrNA (inst : Instance) : String :=
  match inst.PrivateIpAddress with
  | some privateIP => privateIP
  | none => "N/A"

/-- The `fields` slice built for one instance in `getPrivateIPsAndTextLines`. -/
def instanceFields (w : World) (inst : Instance) : Except Panic (List String) :=
  match deref (getValueFromTags inst.Tags "Name") with
  | Except.error p => Except.error p
  | Except.ok name =>
    match formatRoleProfileFromTags inst.Tags with
    | Except.error p => Except.error p
    | Except.ok roleProfile =>
      Except.ok [name, inst.InstanceId, privateIPOrNA inst, roleProfile,
        inst.InstanceType, inst.State.Name, w.humanizeTime inst.LaunchTime]

/-- The inner loop of `getPrivateIPsAndTextLines` over the instances of a
reservation; the state is the address list and the text written so far. -/
def renderInstances (w : World) :
    List Instance → List String × String → Except Panic (List String × String)
  | [], acc => Except.ok acc
  | inst :: insts, (privateIPs, text) =>
    match instanceFields w inst with
    | Except.error p => Except.error p
    | Except.ok fields =>
      renderInstances w insts
        (privateIPs ++ [privateIPOrNA inst], text ++ (String.intercalate "\t" fields ++ "\n"))

/-- The outer loop of `getPrivateIPsAndTextLines` over the reservations. -/
def renderReservations (w : World) :
    List Reservation → List String × String → Except Panic (List String × String)
  | [], acc => Except.ok acc
  | reservation :: reservations, acc =>
    match renderInstances w reservation.Instances acc with
    | Except.error p => Except.error p
    | Except.ok acc1 => renderReservations w reservations acc1

/-- `getPrivateIPsAndTextLines` of `ssh.go`.  The address list is `nil` in Go exactly
when it is empty here: it starts as `nil` and only grows by `append`. -/
def getPrivateIPsAndTextLines (w : World) (result : DescribeInstancesOutput) :
    Except Panic (List String × List String) :=
  match renderReservations w result.Reservations ([], listHeader ++ "\n") with
  | Except.error p => Except.error p
  | Except.ok (privateIPs, text) =>
    Except.ok (privateIPs, stringsSplitNewline (tabwrite text))

/-- The key/value rows written by `getInstanceInfoString`. -/
def instanceInfoRows (w : World) (inst : Instance) : Except Panic (List (String × String)) :=
  match deref (getValueFromTags inst.Tags "Name") with
  | Except.error p => Except.error p
  | Except.ok name =>
    match deref inst.PrivateIpAddress with
    | Except.error p => Except.error p
    | Except.ok privateIP =>
      match deref (getValueFromTags inst.Tags "environment") with
      | Except.error p => Except.error p
      | Except.ok environment =>
        match deref (getValueFromTags inst.Tags "role") with
        | Except.error p => Except.error p
        | Except.ok role =>
          match deref (getValueFromTags inst.Tags "profile") with
          | Except.error p => Except.error p
          | Except.ok profile =>
            Except.ok [("Name:", name), ("Instance ID:", inst.InstanceId),
              ("Private IP:", privateIP), ("Environment:", environment), ("Role:", role),
              ("Profile:", profile), ("Type:", inst.InstanceType),
              ("State:", inst.State.Name),
              ("Uptime:", w.humanizeTime inst.LaunchTime)]

/-- The text that `getInstanceInfoString` writes to its tabwriter: one line
`key<TAB>value` per row. -/
def infoText : List (String × String) → String
  | [] => ""
  | (key, value) :: rows => key ++ "\t" ++ value ++ "\n" ++ infoText rows

/-- `getInstanceInfoString` of `ssh.go`. -/
def getInstanceInfoString (w : World) (inst : Instance) : Except Panic String :=
  match instanceInfoRows w inst with
  | Except.error p => Except.error p
  | Except.ok rows => Except.ok (tabwrite (infoText rows))

/-! ## Commands -/

/-- The loop of `sshByInstanceID` over the environments still to search; `events` are
the calls made so far. -/
def searchEnvs (w : World) (filters : List Filter) : List String → List Event → Run
  | [], events => { events := events, result := Result.err Error.notFound }
  | env :: envs, events =>
    let events := events ++ [Event.connect env]
    match w.newEC2Client env with
    | some e => { events := events, result := Result.err (Error.connection e) }
    | none =>
      let events := events ++ [Event.describe env filters]
      match w.describeInstances env filters with
      | Except.error e => { events := events, result := Result.err (Error.query e) }
      | Except.ok result =>
        match result.Reservations with
        | [] => searchEnvs w filters envs events
        | reservation :: _ =>
          match reservation.Instances with
          | [] => searchEnvs w filters envs events
          | inst :: _ =>
            match deref inst.PrivateIpAddress with
            | Except.error p => { events := events, result := Result.panic p }
            | Except.ok privateIP =>
              match getInstanceInfoString w inst with
              | Except.error p => { events := events, result := Result.panic p }
              | Except.ok info =>
                let events := events ++ [Event.print info, Event.ssh privateIP]
                match w.sshRun privateIP with
                | some e => { events := events, result := Result.err (Error.session e) }
                | none => searchEnvs w filters envs events

/-- `sshByInstanceID` of `ssh.go`. -/
def sshByInstanceID (w : World) (instanceID : String) : Run :=
  let filters := getInstanceIDFilters instanceID
  searchEnvs w filters envsToSearch []

/-- `sshByRoleProfile` of `ssh.go`. -/
def sshByRoleProfile (w : World) (env role profile : String) : Run :=
  let events := [Event.connect env]
  match w.newEC2Client env with
  | some e => { events := events, result := Result.err (Error.connection e) }
  | none =>
    let filters := getRoleProfileFilters role profile
    let events := events ++ [Event.describe env filters]
    match w.describeInstances env filters with
    | Except.error e => { events := events, result := Result.err (Error.query e) }
    | Except.ok result =>
      match getPrivateIPsAndTextLines w result with
      | Except.error p => { events := events, result := Result.panic p }
      | Except.ok (privateIPs, textLines) =>
        if privateIPs = [] then
          { events := events, result := Result.err Error.notFound }
        else
          match textLines with
          | [] => { events := events, result := Result.panic Panic.indexOutOfRange }
          | header :: items =>
            let label := "  " ++ header
            let events := events ++ [Event.prompt label items]
            match w.promptRun label items with
            | Except.error e => { events := events, result := Result.err (Error.selection e) }
            | Except.ok index =>
              match privateIPs.get? index with
              | none => { events := events, result := Result.panic Panic.indexOutOfRange }
              | some privateIP =>
                let events := events ++ [Event.ssh privateIP]
                match w.sshRun privateIP with
                | some e => { events := events, result := Result.err (Error.session e) }
                | none => { events := events, result := Result.ok }

/-- `sshByRole` of `ssh.go`. -/
def sshByRole (w : World) (env role : String) : Run :=
  sshByRoleProfile w env role ""

/-- `strings.HasPrefix(s, p)`. -/
def stringsHasPrefix (s p : String) : Bool :=
  p.data.isPrefixOf s.data

/-- The `Error()` text of an error value. -/
def Error.text : Error → String
  | Error.invalidCommand message _ => message
  | Error.notFound => "no instances found"
  | Error.connection e => e
  | Error.query e => e
  | Error.selection e => e
  | Error.session e => e

/-- A finished process: the events of the run, the top level's error print included,
and the exit status. -/
structure Process where
  events : List Event
  exitCode : Nat
deriving DecidableEq, Repr

/-- `runSSH` of `ssh.go`.  The chain of tests on the argument list picks the function
to call (lines 23-31); then an invalid-command error is printed with its usage text
and the process exits with status 1, any other error is printed and the process exits
with status 255, and without an error the function returns, status 0 (lines 33-42).
A panic ends the Go process with status 2. -/
def runSSH (w : World) (args : List String) : Process :=
  let run : Run :=
    match args with
    | [a0] =>
      if stringsHasPrefix a0 "i-" then sshByInstanceID w a0
      else { events := [], result := Result.err newInvalidCommandError }
    | [a0, a1] => sshByRole w a0 a1
    | [a0, a1, a2] => sshByRoleProfile w a0 a1 a2
    | _ => { events := [], result := Result.err newInvalidCommandError }
  match run.result with
  | Result.ok => { events := run.events, exitCode := 0 }
  | Result.err (Error.invalidCommand message Help) =>
    { events := run.events ++ [Event.print ("Error: " ++ message ++ "\n" ++ Help ++ "\n")],
      exitCode := 1 }
  | Result.err e =>
    { events := run.events ++ [Event.print ("Error:  " ++ e.text ++ "\n")], exitCode := 255 }
  | Result.panic _ => { events := run.events, exitCode := 2 }

/-! ## The specification's view of the dispatcher and of the presenter

These definitions follow the words of the specification; the theorems compare the
functions above with them. -/

/-- Specification: the resolution modes of the command dispatcher. -/
inductive Mode where
  | identifier (instanceID : String)
  | roleProfile (env role profile : String)
  | invalid
deriving DecidableEq, Repr

/-- Specification: the mode that an argument list selects.  One argument with the
identifier prefix selects Identifier mode, two arguments Role/Profile mode with the
empty profile, three arguments Role/Profile mode with the third as profile, anything
else is an invalid invocation. -/
def dispatch (args : List String) : Mode :=
  match args with
  | [a0] => if stringsHasPrefix a0 "i-" then Mode.identifier a0 else Mode.invalid
  | [a0, a1] => Mode.roleProfile a0 a1 ""
  | [a0, a1, a2] => Mode.roleProfile a0 a1 a2
  | _ => Mode.invalid

/-- Specification: the resolution that a mode performs; an invalid invocation
performs none and signals the invalid-command error with the usage text. -/
def Mode.run (w : World) : Mode → Run
  | Mode.identifier instanceID => sshByInstanceID w instanceID
  | Mode.roleProfile env role profile => sshByRoleProfile w env role profile
  | Mode.invalid =>
    { events := [],
      result := Result.err (Error.invalidCommand "invalid command" usageText) }

/-- Specification: the top-level error handling.  Success exits with status 0; an
invalid invocation prints the error and the usage text and exits with status 1; every
other error prints `Error:` and the detail and exits with status 255. -/
def report (run : Run) : Process :=
  match run.result with
  | Result.ok => { events := run.events, exitCode := 0 }
  | Result.err (Error.invalidCommand message Help) =>
    { events := run.events ++ [Event.print ("Error: " ++ message ++ "\n" ++ Help ++ "\n")],
      exitCode := 1 }
  | Result.err e =>
    { events := run.events ++ [Event.print ("Error:  " ++ e.text ++ "\n")], exitCode := 255 }
  | Result.panic _ => { events := run.events, exitCode := 2 }

/-- Specification: the value of a tag of an instance is the value of the first tag
with that key, and the empty string when no tag has that key. -/
def specTagValue (tags : List Tag) (key : String) : String :=
  match tags.find? fun tag => decide (tag.Key = key) with
  | some tag => tag.Value
  | none => ""

/-- Specification: the row of an instance in the list view, as handed to the column
formatter: Name, InstanceID, PrivateIP (or `N/A`), Role (with `/profile` when the
profile is not empty), Type, State and Uptime, separated by tabs and ended by a
newline. -/
def specListRow (w : World) (inst : Instance) : String :=
  String.intercalate "\t"
    [specTagValue inst.Tags "Name",
     inst.InstanceId,
     inst.PrivateIpAddress.getD "N/A",
     if specTagValue inst.Tags "profile" = "" then specTagValue inst.Tags "role"
     else specTagValue inst.Tags "role" ++ "/" ++ specTagValue inst.Tags "profile",
     inst.InstanceType,
     inst.State.Name,
     w.humanizeTime inst.LaunchTime] ++ "\n"

/-- Specification: the rows of a list of instances, one after the other. -/
def specListRows (w : World) : List Instance → String
  | [] => ""
  | inst :: insts => specListRow w inst ++ specListRows w insts

/-- Specification: the detail view of an instance with private address `address`, as
handed to the column formatter: one line `key<TAB>value` for each of the nine keys. -/
def specDetailText (w : World) (inst : Instance) (address : String) : String :=
  "Name:" ++ "\t" ++ specTagValue inst.Tags "Name" ++ "\n" ++
  ("Instance ID:" ++ "\t" ++ inst.InstanceId ++ "\n" ++
  ("Private IP:" ++ "\t" ++ address ++ "\n" ++
  ("Environment:" ++ "\t" ++ specTagValue inst.Tags "environment" ++ "\n" ++
  ("Role:" ++ "\t" ++ specTagValue inst.Tags "role" ++ "\n" ++
  ("Profile:" ++ "\t" ++ specTagValue inst.Tags "profile" ++ "\n" ++
  ("Type:" ++ "\t" ++ inst.InstanceType ++ "\n" ++
  ("State:" ++ "\t" ++ inst.State.Name ++ "\n" ++
  ("Uptime:" ++ "\t" ++ w.humanizeTime inst.LaunchTime ++ "\n" ++ ""))))))))

/-! ## Measures used in the statements -/

/-- All instances of a provider result, reservations in provider order and the
instances of each reservation in provider order. -/
def allInstances (result : DescribeInstancesOutput) : List Instance :=
  (result.Reservations.map fun reservation => reservation.Instances).flatten

/-- The environments queried in a run, in the order of the queries. -/
def queriedEnvs : List Event → List String
  | [] => []
  | Event.describe env _ :: events => env :: queriedEnvs events
  | _ :: events => queriedEnvs events

/-- The addresses to which a session was launched in a run. -/
def sessions : List Event → List String
  | [] => []
  | Event.ssh address :: events => address :: sessions events
  | _ :: events => sessions events

/-- The item lists offered to the picker in a run. -/
def prompts : List Event → List (List String)
  | [] => []
  | Event.prompt _ items :: events => items :: prompts events
  | _ :: events => prompts events

/-! ## Fixtures -/

/-- An instance of the fixtures. -/
def sampleInstance (name address : String) : Instance :=
  { Tags := [{ Key := "Name", Value := name }, { Key := "role", Value := "appserver" }],
    InstanceId := "i-0123456789abcdef0",
    PrivateIpAddress := some address,
    InstanceType := "t3.micro",
    State := { Name := "running" },
    LaunchTime := 0 }

/-- A provider in which only `stg` holds the instance looked for, every connection
and query succeeds, and every session ends without error. -/
def stgOnlyWorld : World :=
  { newEC2Client := fun _ => none,
    describeInstances := fun env _ =>
      if env = "stg" then
        Except.ok { Reservations := [{ Instances := [sampleInstance "web" "10.0.0.7"] }] }
      else Except.ok { Reservations := [] },
    promptRun := fun _ _ => Except.ok 0,
    sshRun := fun _ => none,
    humanizeTime := fun _ => "3 days ago" }

/-- A provider in which only `dev` holds the instance looked for, every connection
and query succeeds, and every session ends without error. -/
def devOnlyWorld : World :=
  { newEC2Client := fun _ => none,
    describeInstances := fun env _ =>
      if env = "dev" then
        Except.ok { Reservations := [{ Instances := [sampleInstance "web" "10.0.0.5"] }] }
      else Except.ok { Reservations := [] },
    promptRun := fun _ _ => Except.ok 0,
    sshRun := fun _ => none,
    humanizeTime := fun _ => "3 days ago" }

/-- A provider result with three instances in two reservations. -/
def threeInstances : DescribeInstancesOutput :=
  { Reservations :=
      [{ Instances := [sampleInstance "web1" "10.0.0.1", sampleInstance "web2" "10.0.0.2"] },
       { Instances := [sampleInstance "web3" "10.0.0.3"] }] }

/-- A provider whose every query returns `threeInstances`, and a picker that returns
the row index `index`. -/
def threeWorld (index : Nat) : World :=
  { newEC2Client := fun _ => none,
    describeInstances := fun _ _ => Except.ok threeInstances,
    promptRun := fun _ _ => Except.ok index,
    sshRun := fun _ => none,
    humanizeTime := fun _ => "3 days ago" }

/-- An instance without any tag, with private address `10.0.0.9`. -/
def bareInstance : Instance :=
  { Tags := [],
    InstanceId := "i-0123456789abcdef0",
    PrivateIpAddress := some "10.0.0.9",
    InstanceType := "t3.micro",
    State := { Name := "running" },
    LaunchTime := 0 }

/-- An instance without any tag and without a private address. -/
def noAddressInstance : Instance :=
  { Tags := [],
    InstanceId := "i-0123456789abcdef0",
    PrivateIpAddress := none,
    InstanceType := "t3.micro",
    State := { Name := "pending" },
    LaunchTime := 0 }

/-- A provider in which `prod` holds the instance looked for, which has no private
address yet. -/
def noAddressWorld : World :=
  { newEC2Client := fun _ => none,
    describeInstances := fun _ _ =>
      Except.ok { Reservations := [{ Instances := [noAddressInstance] }] },
    promptRun := fun _ _ => Except.ok 0,
    sshRun := fun _ => none,
    humanizeTime := fun _ => "3 days ago" }

/-- A provider whose every query returns two empty reservations. -/
def emptyGroupsWorld : World :=
  { newEC2Client := fun _ => none,
    describeInstances := fun _ _ =>
      Except.ok { Reservations := [{ Instances := [] }, { Instances := [] }] },
    promptRun := fun _ _ => Except.ok 0,
    sshRun := fun _ => none,
    humanizeTime := fun _ => "3 days ago" }

/-! ## Line breaks -/

/-- The number of line breaks of a text for the tabwriter: its newlines and form
feeds. -/
def lineBreaks (text : List Char) : Nat :=
  text.countP fun ch => ch = '\n' || ch = Char.ofNat 12

/-- No cell held by the writer contains a newline. -/
def Writer.clean (b : Writer) : Prop :=
  (∀ line ∈ b.lines, ∀ cell ∈ line, List.count '\n' cell = 0) ∧
  (∀ cell ∈ b.line, List.count '\n' cell = 0) ∧
  List.count '\n' b.cell = 0

/-- The newlines written so far plus the complete lines still buffered. -/
def Writer.pending (b : Writer) : Nat :=
  List.count '\n' b.output + b.lines.length

/-- The number of line breaks inside the fields of the row of an instance. -/
def fieldBreaks (w : World) (inst : Instance) : Nat :=
  match instanceFields w inst with
  | Except.ok fields => (fields.map fun field => lineBreaks field.data).sum
  | Except.error _ => 0

/-! # Theorems -/

/-! ## Tags and filters -/

theorem getValueFromTags_eq_find (tags : List Tag) (key : String) :
    getValueFromTags tags key =
      some (((tags.find? fun tag => decide (tag.Key = key)).map Tag.Value).getD "") := by
  induction tags with
  | nil => rfl
  | cons tag tags ih =>
    by_cases h : tag.Key = key
    · simp [getValueFromTags, h]
    · simp [getValueFromTags, h, ih]

theorem getValueFromTags_of_absent (tags : List Tag) (key : String)
    (h : ∀ tag ∈ tags, tag.Key ≠ key) : getValueFromTags tags key = some "" := by
  induction tags with
  | nil => rfl
  | cons tag tags ih =>
    have h1 : tag.Key ≠ key := h tag (List.mem_cons_self _ _)
    have h2 : ∀ t ∈ tags, t.Key ≠ key := fun t ht => h t (List.mem_cons_of_mem _ ht)
    simp [getValueFromTags, h1, ih h2]

/-- C5: the filter list of `getRoleProfileFilters` starts with the filter `tag:role`
whose single value is the role wrapped in `*`, followed by exactly one filter
`tag:profile` with the profile as single value when the profile is not empty, and by
nothing when it is empty. -/
theorem getRoleProfileFilters_spec (role profile : String) :
    getRoleProfileFilters role profile =
      { Name := "tag:role", Values := ["*" ++ role ++ "*"] } ::
        (if profile = "" then [] else [{ Name := "tag:profile", Values := [profile] }]) := by
  unfold getRoleProfileFilters
  by_cases h : profile = "" <;> simp [h]

theorem formatRoleProfileFromTags_eq (tags : List Tag) :
    formatRoleProfileFromTags tags =
      Except.ok
        (if ((tags.find? fun tag => decide (tag.Key = "profile")).map Tag.Value).getD "" = "" then
          ((tags.find? fun tag => decide (tag.Key = "role")).map Tag.Value).getD ""
        else
          ((tags.find? fun tag => decide (tag.Key = "role")).map Tag.Value).getD "" ++ "/" ++
            ((tags.find? fun tag => decide (tag.Key = "profile")).map Tag.Value).getD "") := by
  unfold formatRoleProfileFromTags
  rw [getValueFromTags_eq_find tags "role", getValueFromTags_eq_find tags "profile"]
  by_cases h : ((tags.find? fun tag => decide (tag.Key = "profile")).map Tag.Value).getD "" = ""
  · simp [h, deref]
  · simp [h, deref]

/-- C9: `formatRoleProfileFromTags` returns the value of the role tag alone when the
profile tag is missing or has an empty value, and role, a slash and the profile when
the profile tag has a non-empty value; a missing role tag counts as the empty
string.  So role `roleX` gives `roleX` with an empty profile and `roleX/profileY`
with profile `profileY`. -/
theorem formatRoleProfileFromTags_spec (tags : List Tag) :
    formatRoleProfileFromTags tags =
      Except.ok
        (if ((tags.find? fun tag => decide (tag.Key = "profile")).map Tag.Value).getD "" = "" then
          ((tags.find? fun tag => decide (tag.Key = "role")).map Tag.Value).getD ""
        else
          ((tags.find? fun tag => decide (tag.Key = "role")).map Tag.Value).getD "" ++ "/" ++
            ((tags.find? fun tag => decide (tag.Key = "profile")).map Tag.Value).getD "") ∧
    formatRoleProfileFromTags [{ Key := "role", Value := "roleX" }] = Except.ok "roleX" ∧
    formatRoleProfileFromTags
      [{ Key := "role", Value := "roleX" }, { Key := "profile", Value := "" }] =
        Except.ok "roleX" ∧
    formatRoleProfileFromTags
      [{ Key := "role", Value := "roleX" }, { Key := "profile", Value := "profileY" }] =
        Except.ok "roleX/profileY" :=
  ⟨formatRoleProfileFromTags_eq tags, rfl, rfl, rfl⟩

/-! ## Lines of the tabwriter output -/

theorem splitNewline_ne_nil (s : List Char) : splitNewline s ≠ [] := by
  cases s with
  | nil => simp [splitNewline]
  | cons c cs =>
    unfold splitNewline
    by_cases h : c = '\n'
    · simp [h]
    · simp only [h, if_false]
      cases splitNewline cs <;> simp

theorem stringsSplitNewline_cons (s : String) :
    ∃ header items, stringsSplitNewline s = header :: items := by
  unfold stringsSplitNewline
  cases h : splitNewline s.data with
  | nil => exact absurd h (splitNewline_ne_nil _)
  | cons piece pieces => exact ⟨_, _, rfl⟩

theorem splitNewline_length (s : List Char) :
    (splitNewline s).length = List.count '\n' s + 1 := by
  induction s with
  | nil => rfl
  | cons c cs ih =>
    unfold splitNewline
    by_cases h : c = '\n'
    · subst h
      simp [ih]
    · have hc : List.count '\n' (c :: cs) = List.count '\n' cs := by
        rw [List.count_cons]
        have : (c == '\n') = false := by simpa using h
        simp [this]
      simp only [h, if_false, hc]
      cases hs : splitNewline cs with
      | nil => exact absurd hs (splitNewline_ne_nil cs)
      | cons piece pieces =>
        rw [hs] at ih
        simpa using ih

theorem writeLine_count (widths : List Nat) (line : Line)
    (h : ∀ cell ∈ line, List.count '\n' cell = 0) :
    List.count '\n' (writeLine widths line) = 0 := by
  induction line generalizing widths with
  | nil => cases widths <;> simp [writeLine]
  | cons cell cells ih =>
    have h1 : List.count '\n' cell = 0 := h cell (List.mem_cons_self _ _)
    have h2 : ∀ c ∈ cells, List.count '\n' c = 0 := fun c hc => h c (List.mem_cons_of_mem _ hc)
    cases widths with
    | nil =>
      simp only [writeLine, List.count_append, h1, ih [] h2]
    | cons width widths =>
      have h3 : List.count '\n' (List.replicate (width - cell.length) ' ') = 0 := by
        have hb : (' ' == '\n') = false := by decide
        rw [List.count_replicate, hb]
        rfl
      simp only [writeLine, List.count_append, h1, h3, ih widths h2]

theorem formatLines_length (prev : List Nat) (lines : List Line) :
    (formatLines prev lines).length = lines.length := by
  induction lines generalizing prev with
  | nil => rfl
  | cons line lines ih => simp [formatLines, ih]

theorem formatLines_count (prev : List Nat) (lines : List Line)
    (h : ∀ line ∈ lines, ∀ cell ∈ line, List.count '\n' cell = 0) :
    ∀ text ∈ formatLines prev lines, List.count '\n' text = 0 := by
  induction lines generalizing prev with
  | nil => intro text ht; simp [formatLines] at ht
  | cons line lines ih =>
    intro text ht
    simp only [formatLines, List.mem_cons] at ht
    rcases ht with ht | ht
    · rw [ht]
      exact writeLine_count _ _ (h line (List.mem_cons_self _ _))
    · exact ih _ (fun l hl => h l (List.mem_cons_of_mem _ hl)) text ht

theorem writeBuffer_count (texts : List (List Char))
    (h : ∀ text ∈ texts, List.count '\n' text = 0) :
    List.count '\n' (writeBuffer texts) = texts.length - 1 := by
  induction texts with
  | nil => rfl
  | cons text texts ih =>
    have h1 : List.count '\n' text = 0 := h text (List.mem_cons_self _ _)
    have h2 := ih fun t ht => h t (List.mem_cons_of_mem _ ht)
    cases texts with
    | nil => simpa [writeBuffer] using h1
    | cons text2 texts =>
      simp only [writeBuffer, List.count_append, List.count_cons_self, h1, h2, List.length_cons]
      omega

theorem Writer.flush_clean (b : Writer) : b.flush.clean := by
  simp [Writer.flush, Writer.clean]

theorem Writer.flush_pending (b : Writer) (h : b.clean) : b.flush.pending = b.pending := by
  obtain ⟨h1, h2, h3⟩ := h
  have hl : ∀ line ∈ b.lines ++ [if b.cell ≠ [] then b.line ++ [b.cell] else b.line],
      ∀ cell ∈ line, List.count '\n' cell = 0 := by
    intro line hline cell hcell
    rcases List.mem_append.1 hline with hm | hm
    · exact h1 line hm cell hcell
    · rw [List.mem_singleton] at hm
      subst hm
      by_cases hc : b.cell ≠ []
      · rw [if_pos hc] at hcell
        rcases List.mem_append.1 hcell with hx | hx
        · exact h2 cell hx
        · rw [List.mem_singleton] at hx
          rw [hx]; exact h3
      · rw [if_neg hc] at hcell
        exact h2 cell hcell
  have hc := writeBuffer_count _ (formatLines_count [] _ hl)
  rw [formatLines_length] at hc
  simp only [Writer.pending, Writer.flush, List.count_append, hc, List.length_append,
    List.length_singleton, List.length_nil]
  omega

theorem Writer.write1_clean (b : Writer) (ch : Char) (h : b.clean) : (b.write1 ch).clean := by
  obtain ⟨h1, h2, h3⟩ := h
  unfold Writer.write1
  by_cases ht : ch = '\t' ∨ ch = Char.ofNat 11
  · simp only [ht, if_true]
    refine ⟨h1, ?_, rfl⟩
    intro cell hcell
    rcases List.mem_append.1 hcell with hx | hx
    · exact h2 cell hx
    · rw [List.mem_singleton] at hx
      rw [hx]; exact h3
  · simp only [ht, if_false]
    by_cases hn : ch = '\n' ∨ ch = Char.ofNat 12
    · simp only [hn, if_true]
      split
      · exact Writer.flush_clean _
      · refine ⟨?_, by simp, rfl⟩
        intro line hline cell hcell
        rcases List.mem_append.1 hline with hm | hm
        · exact h1 line hm cell hcell
        · rw [List.mem_singleton] at hm
          subst hm
          rcases List.mem_append.1 hcell with hx | hx
          · exact h2 cell hx
          · rw [List.mem_singleton] at hx
            rw [hx]; exact h3
    · simp only [hn, if_false]
      refine ⟨h1, h2, ?_⟩
      have hne : ch ≠ '\n' := fun e => hn (Or.inl e)
      have hb : (ch == '\n') = false := by simpa using hne
      change List.count '\n' (b.cell ++ [ch]) = 0
      rw [List.count_append, h3, List.count_cons, List.count_nil]
      simp [hb]

theorem lineBreaks_cons (ch : Char) (text : List Char) :
    lineBreaks (ch :: text) =
      lineBreaks text + (if ch = '\n' ∨ ch = Char.ofNat 12 then 1 else 0) := by
  unfold lineBreaks
  rw [List.countP_cons]
  by_cases h : ch = '\n' ∨ ch = Char.ofNat 12
  · have : (decide (ch = '\n') || decide (ch = Char.ofNat 12)) = true := by simpa using h
    simp [h, this]
  · have : (decide (ch = '\n') || decide (ch = Char.ofNat 12)) = false := by simpa using h
    simp [h, this]

theorem lineBreaks_append (s t : List Char) :
    lineBreaks (s ++ t) = lineBreaks s + lineBreaks t := by
  unfold lineBreaks
  exact List.countP_append _ _ _

theorem Writer.write1_pending (b : Writer) (ch : Char) (h : b.clean) :
    (b.write1 ch).pending =
      b.pending + (if ch = '\n' ∨ ch = Char.ofNat 12 then 1 else 0) := by
  unfold Writer.write1
  by_cases ht : ch = '\t' ∨ ch = Char.ofNat 11
  · have hn : ¬ (ch = '\n' ∨ ch = Char.ofNat 12) := by
      rcases ht with ht | ht <;> subst ht <;> decide
    simp only [ht, hn, if_true, if_false, Writer.pending, Nat.add_zero]
  · simp only [ht, if_false]
    by_cases hn : ch = '\n' ∨ ch = Char.ofNat 12
    · simp only [hn, if_true]
      have hclean : Writer.clean ⟨b.output, b.lines ++ [b.line ++ [b.cell]], [], []⟩ := by
        obtain ⟨h1, h2, h3⟩ := h
        refine ⟨?_, by simp, rfl⟩
        intro line hline cell hcell
        rcases List.mem_append.1 hline with hm | hm
        · exact h1 line hm cell hcell
        · rw [List.mem_singleton] at hm
          subst hm
          rcases List.mem_append.1 hcell with hx | hx
          · exact h2 cell hx
          · rw [List.mem_singleton] at hx
            rw [hx]; exact h3
      split
      · rw [Writer.flush_pending _ hclean]
        simp [Writer.pending]
        omega
      · simp [Writer.pending]
        omega
    · simp only [hn, if_false, Writer.pending, Nat.add_zero]

theorem Writer.write_clean_pending (text : List Char) (b : Writer) (h : b.clean) :
    (b.write text).clean ∧ (b.write text).pending = b.pending + lineBreaks text := by
  induction text generalizing b with
  | nil => exact ⟨h, by simp [Writer.write, lineBreaks]⟩
  | cons ch text ih =>
    have h1 := Writer.write1_clean b ch h
    have h2 := Writer.write1_pending b ch h
    obtain ⟨h3, h4⟩ := ih (b.write1 ch) h1
    refine ⟨h3, ?_⟩
    change ((b.write1 ch).write text).pending = _
    rw [h4, h2, lineBreaks_cons]
    omega

theorem tabwrite_count (text : String) :
    List.count '\n' (tabwrite text).data = lineBreaks text.data := by
  have hnew : Writer.new.clean := by simp [Writer.new, Writer.clean]
  obtain ⟨h1, h2⟩ := Writer.write_clean_pending text.data Writer.new hnew
  have h3 := Writer.flush_pending _ h1
  rw [h2] at h3
  have h4 : (Writer.new.write text.data).flush.lines = [] := rfl
  simp only [Writer.pending, h4, List.length_nil, Nat.add_zero] at h3
  simpa [tabwrite, Writer.new] using h3

theorem stringsSplitNewline_tabwrite_length (text : String) :
    (stringsSplitNewline (tabwrite text)).length = lineBreaks text.data + 1 := by
  unfold stringsSplitNewline
  rw [List.length_map, splitNewline_length, tabwrite_count]

theorem lineBreaks_intercalate_go (acc : String) (fields : List String) :
    lineBreaks (String.intercalate.go acc "\t" fields).data =
      lineBreaks acc.data + (fields.map fun field => lineBreaks field.data).sum := by
  induction fields generalizing acc with
  | nil => simp [String.intercalate.go]
  | cons field fields ih =>
    have ht : lineBreaks "\t".data = 0 := by decide
    simp only [String.intercalate.go, ih, String.data_append, lineBreaks_append, ht,
      List.map_cons, List.sum_cons]
    omega

theorem lineBreaks_row (fields : List String) :
    lineBreaks (String.intercalate "\t" fields ++ "\n").data =
      (fields.map fun field => lineBreaks field.data).sum + 1 := by
  have hn : lineBreaks "\n".data = 1 := by decide
  cases fields with
  | nil =>
    rw [String.data_append, lineBreaks_append, hn]
    rfl
  | cons field fields =>
    rw [String.data_append, lineBreaks_append, hn]
    simp only [String.intercalate, lineBreaks_intercalate_go, List.map_cons, List.sum_cons]

/-! ## The string after the last newline -/

theorem formatLines_append_empty (prev : List Nat) (line : Line) (lines : List Line) :
    ∃ text texts, formatLines prev (line :: (lines ++ [[]])) = text :: (texts ++ [[]]) := by
  induction lines generalizing prev line with
  | nil => exact ⟨writeLine (columnWidths prev [line, []]) line, [], rfl⟩
  | cons line2 lines ih =>
    obtain ⟨text2, texts, h⟩ := ih (columnWidths prev (line :: (line2 :: lines ++ [[]]))) line2
    refine ⟨writeLine (columnWidths prev (line :: (line2 :: lines ++ [[]]))) line,
      text2 :: texts, ?_⟩
    have hstep : formatLines prev (line :: (line2 :: lines ++ [[]])) =
        writeLine (columnWidths prev (line :: (line2 :: lines ++ [[]]))) line ::
          formatLines (columnWidths prev (line :: (line2 :: lines ++ [[]])))
            (line2 :: (lines ++ [[]])) := rfl
    rw [hstep, h]
    rfl

theorem writeBuffer_append_empty (text : List Char) (texts : List (List Char)) :
    ∃ out, writeBuffer (text :: (texts ++ [[]])) = out ++ ['\n'] := by
  induction texts generalizing text with
  | nil => exact ⟨text, rfl⟩
  | cons text2 texts ih =>
    obtain ⟨out, h⟩ := ih text2
    refine ⟨text ++ '\n' :: out, ?_⟩
    have h1 : writeBuffer (text :: (text2 :: texts ++ [[]])) =
        text ++ '\n' :: writeBuffer (text2 :: (texts ++ [[]])) := rfl
    rw [h1, h, List.append_assoc]
    rfl

theorem Writer.write_append (b : Writer) (s t : List Char) :
    b.write (s ++ t) = (b.write s).write t := by
  simp [Writer.write, List.foldl_append]

theorem Writer.flush_write_newline (b : Writer) :
    ∃ out, ((b.write1 '\n').flush).output = out ++ ['\n'] := by
  obtain ⟨text, texts, hf⟩ := formatLines_append_empty []
    ((b.lines ++ [b.line ++ [b.cell]]).head (by simp))
    ((b.lines ++ [b.line ++ [b.cell]]).tail)
  obtain ⟨out, hw⟩ := writeBuffer_append_empty text texts
  have hf1 : formatLines [] ((b.lines ++ [b.line ++ [b.cell]]) ++ [[]]) =
      text :: (texts ++ [[]]) := by
    rw [← hf, ← List.cons_append, List.head_cons_tail]
  have hflush : (Writer.flush ⟨b.output, b.lines ++ [b.line ++ [b.cell]], [], []⟩).output =
      b.output ++ (out ++ ['\n']) := by
    simp only [Writer.flush, ne_eq, not_true_eq_false, if_false, hf1, hw]
  have hflush2 : ∀ c : Writer, c.flush.flush.output = c.flush.output := by
    intro c
    simp [Writer.flush, formatLines, writeLine, writeBuffer]
  have hw1 : b.write1 '\n' =
      if (b.line ++ [b.cell]).length = 1 then
        Writer.flush ⟨b.output, b.lines ++ [b.line ++ [b.cell]], [], []⟩
      else ⟨b.output, b.lines ++ [b.line ++ [b.cell]], [], []⟩ := by
    have ht : ¬ ('\n' = '\t' ∨ '\n' = Char.ofNat 11) := by decide
    have hn : ('\n' = '\n' ∨ '\n' = Char.ofNat 12) := Or.inl rfl
    have hff : ¬ ('\n' = Char.ofNat 12) := by decide
    simp only [Writer.write1, ht, hff, if_true, if_false, false_or, or_false]
  refine ⟨b.output ++ out, ?_⟩
  rw [hw1]
  by_cases hc : (b.line ++ [b.cell]).length = 1
  · rw [if_pos hc, hflush2, hflush, List.append_assoc]
  · rw [if_neg hc, hflush, List.append_assoc]

theorem tabwrite_append_newline (text : String) :
    ∃ out, (tabwrite (text ++ "\n")).data = out ++ ['\n'] := by
  have h : (text ++ "\n").data = text.data ++ ['\n'] := by
    rw [String.data_append]
  obtain ⟨out, ho⟩ := Writer.flush_write_newline (Writer.new.write text.data)
  refine ⟨out, ?_⟩
  simp only [tabwrite, h, Writer.write_append]
  exact ho

theorem splitNewline_append_newline (s : List Char) :
    splitNewline (s ++ ['\n']) = splitNewline s ++ [[]] := by
  induction s with
  | nil => rfl
  | cons c cs ih =>
    by_cases h : c = '\n'
    · simp [splitNewline, h, ih]
    · have h1 : splitNewline (c :: (cs ++ ['\n'])) =
          match splitNewline (cs ++ ['\n']) with
          | [] => [[c]]
          | piece :: pieces => (c :: piece) :: pieces := by
        simp [splitNewline, h]
      have h2 : splitNewline (c :: cs) =
          match splitNewline cs with
          | [] => [[c]]
          | piece :: pieces => (c :: piece) :: pieces := by
        simp [splitNewline, h]
      rw [List.cons_append, h1, h2, ih]
      cases hs : splitNewline cs with
      | nil => exact absurd hs (splitNewline_ne_nil cs)
      | cons piece pieces => rfl

theorem stringsSplitNewline_tabwrite_last (text : String) :
    ∃ texts, stringsSplitNewline (tabwrite (text ++ "\n")) = texts ++ [""] := by
  obtain ⟨out, ho⟩ := tabwrite_append_newline text
  refine ⟨(splitNewline out).map String.mk, ?_⟩
  simp only [stringsSplitNewline, ho, splitNewline_append_newline, List.map_append,
    List.map_cons, List.map_nil]

/-! ## Presenter -/

theorem deref_getValueFromTags (tags : List Tag) (key : String) :
    deref (getValueFromTags tags key) =
      Except.ok (((tags.find? fun tag => decide (tag.Key = key)).map Tag.Value).getD "") := by
  rw [getValueFromTags_eq_find]; rfl

theorem instanceFields_ok (w : World) (inst : Instance) :
    ∃ roleProfile, instanceFields w inst =
      Except.ok [((inst.Tags.find? fun tag => decide (tag.Key = "Name")).map Tag.Value).getD "",
        inst.InstanceId, privateIPOrNA inst, roleProfile, inst.InstanceType, inst.State.Name,
        w.humanizeTime inst.LaunchTime] := by
  unfold instanceFields
  rw [deref_getValueFromTags, formatRoleProfileFromTags_eq]
  exact ⟨_, rfl⟩

theorem renderInstances_ok (w : World) (insts : List Instance) (privateIPs : List String)
    (text : String) :
    ∃ text1, renderInstances w insts (privateIPs, text) =
        Except.ok (privateIPs ++ insts.map privateIPOrNA, text1) ∧
      lineBreaks text1.data =
        lineBreaks text.data + insts.length + (insts.map (fieldBreaks w)).sum ∧
      ((∃ t, text = t ++ "\n") → ∃ t, text1 = t ++ "\n") := by
  induction insts generalizing privateIPs text with
  | nil => exact ⟨text, by simp [renderInstances], by simp, fun h => h⟩
  | cons inst insts ih =>
    obtain ⟨roleProfile, hf⟩ := instanceFields_ok w inst
    obtain ⟨text1, h1, h2, h3⟩ := ih (privateIPs ++ [privateIPOrNA inst])
      (text ++ (String.intercalate "\t" [((inst.Tags.find? fun tag =>
        decide (tag.Key = "Name")).map Tag.Value).getD "",
        inst.InstanceId, privateIPOrNA inst, roleProfile, inst.InstanceType, inst.State.Name,
        w.humanizeTime inst.LaunchTime] ++ "\n"))
    refine ⟨text1, ?_, ?_, ?_⟩
    · simp only [renderInstances, hf, h1, List.map_cons, List.append_assoc,
        List.singleton_append]
    · have hb : fieldBreaks w inst =
          ([((inst.Tags.find? fun tag => decide (tag.Key = "Name")).map Tag.Value).getD "",
            inst.InstanceId, privateIPOrNA inst, roleProfile, inst.InstanceType,
            inst.State.Name, w.humanizeTime inst.LaunchTime].map
              fun field => lineBreaks field.data).sum := by
        simp only [fieldBreaks, hf]
      rw [h2, String.data_append, lineBreaks_append, lineBreaks_row, ← hb]
      simp only [List.length_cons, List.map_cons, List.sum_cons]
      omega
    · intro _
      exact h3 ⟨_, (String.append_assoc _ _ _).symm⟩

theorem renderReservations_ok (w : World) (reservations : List Reservation)
    (privateIPs : List String) (text : String) :
    ∃ text1, renderReservations w reservations (privateIPs, text) =
        Except.ok (privateIPs ++
          ((reservations.map fun reservation => reservation.Instances).flatten).map
            privateIPOrNA, text1) ∧
      lineBreaks text1.data =
        lineBreaks text.data +
          ((reservations.map fun reservation => reservation.Instances).flatten).length +
          (((reservations.map fun reservation => reservation.Instances).flatten).map
            (fieldBreaks w)).sum ∧
      ((∃ t, text = t ++ "\n") → ∃ t, text1 = t ++ "\n") := by
  induction reservations generalizing privateIPs text with
  | nil => exact ⟨text, by simp [renderReservations], by simp, fun h => h⟩
  | cons reservation reservations ih =>
    obtain ⟨text1, h1, b1, e1⟩ := renderInstances_ok w reservation.Instances privateIPs text
    obtain ⟨text2, h2, b2, e2⟩ :=
      ih (privateIPs ++ reservation.Instances.map privateIPOrNA) text1
    refine ⟨text2, ?_, ?_, fun h => e2 (e1 h)⟩
    · simp only [renderReservations, h1, h2, List.map_cons, List.flatten_cons, List.map_append,
        List.append_assoc]
    · rw [b2, b1]
      simp only [List.map_cons, List.flatten_cons, List.length_append, List.map_append,
        List.sum_append]
      omega

theorem getPrivateIPsAndTextLines_ok (w : World) (result : DescribeInstancesOutput) :
    ∃ header rows, getPrivateIPsAndTextLines w result =
        Except.ok ((allInstances result).map privateIPOrNA, header :: (rows ++ [""])) ∧
      rows.length =
        (allInstances result).length + ((allInstances result).map (fieldBreaks w)).sum := by
  obtain ⟨text1, h1, b1, e1⟩ :=
    renderReservations_ok w result.Reservations [] (listHeader ++ "\n")
  obtain ⟨t, ht⟩ := e1 ⟨listHeader, rfl⟩
  obtain ⟨texts, h2⟩ := stringsSplitNewline_tabwrite_last t
  rw [← ht] at h2
  have h4 : lineBreaks (listHeader ++ "\n").data = 1 := by decide
  have h3 : (texts ++ [""]).length =
      1 + (List.map (fun reservation => reservation.Instances) result.Reservations).flatten.length +
        (List.map (fieldBreaks w)
          (List.map (fun reservation => reservation.Instances) result.Reservations).flatten).sum
        + 1 := by
    rw [← h2, stringsSplitNewline_tabwrite_length, b1, h4]
  cases texts with
  | nil => simp at h3
  | cons header rows =>
    refine ⟨header, rows, ?_, ?_⟩
    · simp only [getPrivateIPsAndTextLines, h1, h2, allInstances, List.nil_append,
        List.cons_append]
    · simp only [List.cons_append, List.length_cons, List.length_append, List.length_nil,
        allInstances] at h3 ⊢
      omega

/-- C8: the address list returned by `getPrivateIPsAndTextLines` is the flattening of
the provider result, reservations in provider order and instances in provider order
within each, every instance giving its private address when it has one and the
marker `N/A` when it has none; so it has as many entries as there are instances and
its entry `i` belongs to instance `i` of the flattening. -/
theorem getPrivateIPsAndTextLines_addresses (w : World) (result : DescribeInstancesOutput) :
    ∃ privateIPs textLines,
      getPrivateIPsAndTextLines w result = Except.ok (privateIPs, textLines) ∧
      privateIPs =
        ((result.Reservations.map fun reservation => reservation.Instances).flatten).map
          (fun inst => inst.PrivateIpAddress.getD "N/A") ∧
      privateIPs.length = (allInstances result).length ∧
      ∀ i, privateIPs.get? i =
        ((allInstances result).get? i).map fun inst => inst.PrivateIpAddress.getD "N/A" := by
  obtain ⟨header, rows, h, -⟩ := getPrivateIPsAndTextLines_ok w result
  have hf : privateIPOrNA = fun inst => inst.PrivateIpAddress.getD "N/A" := by
    funext inst
    unfold privateIPOrNA
    cases inst.PrivateIpAddress <;> rfl
  refine ⟨_, _, h, ?_, ?_, ?_⟩
  · rw [hf, allInstances]
  · simp
  · intro i
    rw [hf]
    simp [List.getElem?_map]

theorem specTagValue_eq (tags : List Tag) (key : String) :
    specTagValue tags key =
      ((tags.find? fun tag => decide (tag.Key = key)).map Tag.Value).getD "" := by
  unfold specTagValue
  cases tags.find? fun tag => decide (tag.Key = key) <;> rfl

theorem instanceFields_eq (w : World) (inst : Instance) :
    instanceFields w inst =
      Except.ok
        [specTagValue inst.Tags "Name",
         inst.InstanceId,
         inst.PrivateIpAddress.getD "N/A",
         if specTagValue inst.Tags "profile" = "" then specTagValue inst.Tags "role"
         else specTagValue inst.Tags "role" ++ "/" ++ specTagValue inst.Tags "profile",
         inst.InstanceType,
         inst.State.Name,
         w.humanizeTime inst.LaunchTime] := by
  have hp : privateIPOrNA inst = inst.PrivateIpAddress.getD "N/A" := by
    unfold privateIPOrNA
    cases inst.PrivateIpAddress <;> rfl
  unfold instanceFields
  rw [deref_getValueFromTags, formatRoleProfileFromTags_eq, hp]
  simp only [specTagValue_eq]

theorem renderInstances_text (w : World) (insts : List Instance) (privateIPs : List String)
    (text : String) :
    renderInstances w insts (privateIPs, text) =
      Except.ok (privateIPs ++ insts.map (fun inst => inst.PrivateIpAddress.getD "N/A"),
        text ++ specListRows w insts) := by
  induction insts generalizing privateIPs text with
  | nil => simp [renderInstances, specListRows]
  | cons inst insts ih =>
    have hp : privateIPOrNA inst = inst.PrivateIpAddress.getD "N/A" := by
      unfold privateIPOrNA
      cases inst.PrivateIpAddress <;> rfl
    have hrow : text ++ specListRow w inst ++ specListRows w insts =
        text ++ specListRows w (inst :: insts) := by
      rw [String.append_assoc]
      rfl
    simp only [renderInstances, instanceFields_eq, hp]
    rw [ih]
    simp only [List.map_cons, List.append_assoc, List.singleton_append]
    exact congrArg (fun t => Except.ok (_, t)) hrow

theorem specListRows_append (w : World) (xs ys : List Instance) :
    specListRows w (xs ++ ys) = specListRows w xs ++ specListRows w ys := by
  induction xs with
  | nil => simp [specListRows]
  | cons x xs ih =>
    show specListRow w x ++ specListRows w (xs ++ ys) =
      (specListRow w x ++ specListRows w xs) ++ specListRows w ys
    rw [ih, String.append_assoc]

theorem renderReservations_text (w : World) (reservations : List Reservation)
    (privateIPs : List String) (text : String) :
    renderReservations w reservations (privateIPs, text) =
      Except.ok (privateIPs ++
        ((reservations.map fun reservation => reservation.Instances).flatten).map
          (fun inst => inst.PrivateIpAddress.getD "N/A"),
        text ++ specListRows w
          ((reservations.map fun reservation => reservation.Instances).flatten)) := by
  induction reservations generalizing privateIPs text with
  | nil => simp [renderReservations, specListRows]
  | cons reservation reservations ih =>
    simp only [renderReservations, renderInstances_text, ih, List.map_cons, List.flatten_cons,
      List.map_append, List.append_assoc, specListRows_append, String.append_assoc]

theorem getPrivateIPsAndTextLines_eq (w : World) (result : DescribeInstancesOutput) :
    getPrivateIPsAndTextLines w result =
      Except.ok ((allInstances result).map (fun inst => inst.PrivateIpAddress.getD "N/A"),
        stringsSplitNewline
          (tabwrite (listHeader ++ "\n" ++ specListRows w (allInstances result)))) := by
  simp only [getPrivateIPsAndTextLines, renderReservations_text, allInstances, List.nil_append]

theorem getInstanceInfoString_eq (w : World) (inst : Instance) (address : String)
    (ha : inst.PrivateIpAddress = some address) :
    getInstanceInfoString w inst = Except.ok (tabwrite (specDetailText w inst address)) := by
  unfold getInstanceInfoString instanceInfoRows
  rw [ha]
  simp only [deref_getValueFromTags]
  simp only [deref, ← specTagValue_eq]
  rfl

/-- C10: when no tag of the list carries the key, `getValueFromTags` yields a pointer
to the empty string (not `nil`), and so the value of that tag is the empty string.
The list view is the column formatter's output for the header and one row per
instance whose Name field is the value of the Name tag, and the detail view of an
instance that has a private address is the column formatter's output for the nine
lines whose Name, Environment, Role and Profile values are the values of these tags;
hence an instance lacking one of these tags has the empty string in that field. -/
theorem getValueFromTags_missing (w : World) (tags : List Tag) (key : String)
    (h : ∀ tag ∈ tags, tag.Key ≠ key) :
    getValueFromTags tags key = some "" ∧
    specTagValue tags key = "" ∧
    (∀ result : DescribeInstancesOutput,
      getPrivateIPsAndTextLines w result =
        Except.ok ((allInstances result).map (fun inst => inst.PrivateIpAddress.getD "N/A"),
          stringsSplitNewline
            (tabwrite (listHeader ++ "\n" ++ specListRows w (allInstances result))))) ∧
    (∀ (inst : Instance) (address : String), inst.PrivateIpAddress = some address →
      getInstanceInfoString w inst = Except.ok (tabwrite (specDetailText w inst address))) := by
  have h0 := getValueFromTags_of_absent tags key h
  refine ⟨h0, ?_, getPrivateIPsAndTextLines_eq w, getInstanceInfoString_eq w⟩
  have h1 := getValueFromTags_eq_find tags key
  rw [h0] at h1
  rw [specTagValue_eq]
  exact (Option.some.inj h1).symm

set_option maxRecDepth 100000 in
/-- Witness for C10: an instance without any tag.  Its row in the list view starts
with the blanks of the Name column, and the Name, Environment, Role and Profile lines
of its detail view hold blanks only after the key. -/
theorem getValueFromTags_missing_witness :
    getValueFromTags bareInstance.Tags "Name" = some "" ∧
    specTagValue bareInstance.Tags "Name" = "" ∧
    getPrivateIPsAndTextLines stgOnlyWorld { Reservations := [{ Instances := [bareInstance] }] } =
      Except.ok (["10.0.0.9"],
        ["Name InstanceID          PrivateIP Role Type     State   Uptime",
         "     i-0123456789abcdef0 10.0.0.9       t3.micro running 3 days ago",
         ""]) ∧
    getInstanceInfoString stgOnlyWorld bareInstance =
      Except.ok ("Name:        \nInstance ID: i-0123456789abcdef0\nPrivate IP:  10.0.0.9\n" ++
        "Environment: \nRole:        \nProfile:     \nType:        t3.micro\n" ++
        "State:       running\nUptime:      3 days ago\n") :=
  have h := getValueFromTags_missing stgOnlyWorld bareInstance.Tags "Name" (by decide)
  ⟨h.1, h.2.1,
    (h.2.2.1 { Reservations := [{ Instances := [bareInstance] }] }).trans rfl,
    (h.2.2.2 bareInstance "10.0.0.9" rfl).trans rfl⟩

set_option maxRecDepth 100000 in
/-- Counterexample for C10: an instance that lacks the Name tag and has no private
address has no detail view: `getInstanceInfoString` panics on the address, and so
does `sshByInstanceID` before anything is printed. -/
theorem getInstanceInfoString_no_address :
    noAddressInstance.Tags = [] ∧
    getInstanceInfoString noAddressWorld noAddressInstance =
      Except.error Panic.nilDereference ∧
    sshByInstanceID noAddressWorld "i-0123456789abcdef0" =
      { events := [Event.connect "prod",
          Event.describe "prod" [{ Name := "instance-id", Values := ["i-0123456789abcdef0"] }]],
        result := Result.panic Panic.nilDereference } :=
  ⟨rfl, rfl, by decide⟩

/-! ## Dispatch -/

theorem stringsHasPrefix_iff (s p : String) :
    stringsHasPrefix s p = true ↔ ∃ rest, s = p ++ rest := by
  unfold stringsHasPrefix
  rw [List.isPrefixOf_iff_prefix]
  constructor
  · rintro ⟨t, ht⟩
    refine ⟨String.mk t, ?_⟩
    apply String.ext
    rw [String.data_append, ← ht]
  · rintro ⟨rest, hr⟩
    refine ⟨rest.data, ?_⟩
    rw [hr, String.data_append]

theorem runSSH_eq_report (w : World) (args : List String) :
    runSSH w args = report ((dispatch args).run w) := by
  match args with
  | [] => rfl
  | [a0] =>
    by_cases h : stringsHasPrefix a0 "i-" = true
    · simp only [runSSH, dispatch, h, if_true, Mode.run, report]
    · simp only [runSSH, dispatch, h, Mode.run, report]
      rfl
  | [a0, a1] => rfl
  | [a0, a1, a2] => rfl
  | _ :: _ :: _ :: _ :: _ => rfl

theorem dispatch_identifier_iff (args : List String) (instanceID : String) :
    dispatch args = Mode.identifier instanceID ↔
      args = [instanceID] ∧ ∃ rest, instanceID = "i-" ++ rest := by
  match args with
  | [] => simp [dispatch]
  | [a0] =>
    by_cases h : stringsHasPrefix a0 "i-" = true
    · have h1 := (stringsHasPrefix_iff a0 "i-").1 h
      simp only [dispatch, h, if_true, Mode.identifier.injEq, List.cons.injEq, and_true]
      constructor
      · intro e; subst e; exact ⟨rfl, h1⟩
      · intro e; exact e.1
    · have h1 : ¬ ∃ rest, a0 = "i-" ++ rest := fun hx => h ((stringsHasPrefix_iff a0 "i-").2 hx)
      simp only [dispatch, h, List.cons.injEq, and_true]
      constructor
      · intro e; simp at e
      · rintro ⟨e, hx⟩; subst e; exact absurd hx h1
  | [a0, a1] => simp [dispatch]
  | [a0, a1, a2] => simp [dispatch]
  | _ :: _ :: _ :: _ :: _ => simp [dispatch]

theorem dispatch_roleProfile_iff (args : List String) (env role profile : String) :
    dispatch args = Mode.roleProfile env role profile ↔
      (args = [env, role] ∧ profile = "") ∨ args = [env, role, profile] := by
  match args with
  | [] => simp [dispatch]
  | [a0] => by_cases h : stringsHasPrefix a0 "i-" = true <;> simp [dispatch, h]
  | [a0, a1] =>
    simp only [dispatch, Mode.roleProfile.injEq, List.cons.injEq, and_true]
    constructor
    · rintro ⟨e0, e1, e2⟩
      exact Or.inl ⟨⟨e0, e1⟩, e2.symm⟩
    · rintro (⟨⟨e0, e1⟩, e2⟩ | ⟨-, -, e⟩)
      · exact ⟨e0, e1, e2.symm⟩
      · simp at e
  | [a0, a1, a2] => simp [dispatch]
  | _ :: _ :: _ :: _ :: _ => simp [dispatch]

theorem dispatch_invalid_iff (args : List String) :
    dispatch args = Mode.invalid ↔
      (¬ ∃ rest, args = ["i-" ++ rest]) ∧ args.length ≠ 2 ∧ args.length ≠ 3 := by
  match args with
  | [] => simp [dispatch]
  | [a0] =>
    by_cases h : stringsHasPrefix a0 "i-" = true
    · have h1 := (stringsHasPrefix_iff a0 "i-").1 h
      simp only [dispatch, h, if_true]
      constructor
      · intro e; simp at e
      · rintro ⟨hx, -⟩
        obtain ⟨rest, hr⟩ := h1
        exact absurd ⟨rest, by rw [hr]⟩ hx
    · have h1 : ¬ ∃ rest, a0 = "i-" ++ rest := fun hx => h ((stringsHasPrefix_iff a0 "i-").2 hx)
      simp only [dispatch, h]
      simp only [Bool.false_eq_true, if_false, true_iff]
      refine ⟨?_, by simp, by simp⟩
      rintro ⟨rest, hr⟩
      exact h1 ⟨rest, by simpa using hr⟩
  | [a0, a1] => simp [dispatch]
  | [a0, a1, a2] => simp [dispatch]
  | _ :: _ :: _ :: _ :: _ => simp [dispatch]

theorem searchEnvs_result_ne_invalid (w : World) (filters : List Filter) (envs : List String)
    (events : List Event) (message Help : String) :
    (searchEnvs w filters envs events).result ≠
      Result.err (Error.invalidCommand message Help) := by
  induction envs generalizing events with
  | nil => simp [searchEnvs]
  | cons env envs ih =>
    unfold searchEnvs
    split
    · simp
    · split
      · simp
      · split
        · exact ih _
        · split
          · exact ih _
          · split
            · simp
            · split
              · simp
              · split
                · simp
                · exact ih _

theorem sshByRoleProfile_result_ne_invalid (w : World) (env role profile message Help : String) :
    (sshByRoleProfile w env role profile).result ≠
      Result.err (Error.invalidCommand message Help) := by
  cases hc : w.newEC2Client env with
  | some e => simp [sshByRoleProfile, hc]
  | none =>
    cases hq : w.describeInstances env (getRoleProfileFilters role profile) with
    | error e => simp [sshByRoleProfile, hc, hq]
    | ok result =>
      obtain ⟨header, rows, h, -⟩ := getPrivateIPsAndTextLines_ok w result
      by_cases hm : List.map privateIPOrNA (allInstances result) = []
      · simp [sshByRoleProfile, hc, hq, h, hm]
      · cases hp : w.promptRun ("  " ++ header) (rows ++ [""]) with
        | error e => simp [sshByRoleProfile, hc, hq, h, hm, hp]
        | ok index =>
          cases hg : (List.map privateIPOrNA (allInstances result)).get? index with
          | none =>
            simp only [sshByRoleProfile, hc, hq, h, hm, hp, if_false]
            rw [hg]
            simp
          | some privateIP =>
            simp only [sshByRoleProfile, hc, hq, h, hm, hp, if_false]
            rw [hg]
            cases hs : w.sshRun privateIP <;> simp [hs]

theorem report_exitCode_one (run : Run) :
    (report run).exitCode = 1 ↔
      ∃ message Help, run.result = Result.err (Error.invalidCommand message Help) := by
  unfold report
  cases hr : run.result with
  | ok => simp
  | panic p => simp
  | err e => cases e <;> simp

theorem report_events (run : Run) :
    ∃ printed, (report run).events = run.events ++ printed ∧ printed.length ≤ 1 := by
  unfold report
  cases hr : run.result with
  | ok => exact ⟨[], by simp⟩
  | panic p => exact ⟨[], by simp⟩
  | err e => cases e <;> exact ⟨_, rfl, by simp⟩

theorem report_exitCode_zero (run : Run) :
    (report run).exitCode = 0 ↔ run.result = Result.ok := by
  unfold report
  cases hr : run.result with
  | ok => simp
  | panic p => simp
  | err e => cases e <;> simp

/-- C6, as amended: for every argument list `runSSH` performs the resolution of the
mode that the argument list selects and reports its outcome: its events are those of
that resolution followed by at most one print, and it exits with status 0 exactly when
the resolution returned no error.  Identifier mode on the argument is selected exactly
when there is one argument and it begins with `i-`.  Role/Profile mode is selected
with the empty profile by two arguments and with the third argument as profile by
three arguments; so it is selected exactly when there are two arguments and the
profile is empty or there are three arguments and the profile is the third.  Every
other argument list is an invalid invocation: no resolution is performed, the error
is the invalid-command error with the fixed usage text, printed with the usage text,
and the exit status is 1; the exit status is 1 in no other case. -/
theorem runSSH_dispatch (w : World) (args : List String) :
    runSSH w args = report ((dispatch args).run w) ∧
    (∃ printed, (runSSH w args).events = ((dispatch args).run w).events ++ printed ∧
      printed.length ≤ 1) ∧
    ((runSSH w args).exitCode = 0 ↔ ((dispatch args).run w).result = Result.ok) ∧
    (∀ instanceID, dispatch args = Mode.identifier instanceID ↔
      args = [instanceID] ∧ ∃ rest, instanceID = "i-" ++ rest) ∧
    (∀ env role profile, dispatch args = Mode.roleProfile env role profile ↔
      (args = [env, role] ∧ profile = "") ∨ args = [env, role, profile]) ∧
    (dispatch args = Mode.invalid ↔
      (¬ ∃ rest, args = ["i-" ++ rest]) ∧ args.length ≠ 2 ∧ args.length ≠ 3) ∧
    (∀ instanceID rest, args = [instanceID] → instanceID = "i-" ++ rest →
      runSSH w args = report (sshByInstanceID w instanceID)) ∧
    (∀ env role, args = [env, role] →
      runSSH w args = report (sshByRoleProfile w env role "")) ∧
    (∀ env role profile, args = [env, role, profile] →
      runSSH w args = report (sshByRoleProfile w env role profile)) ∧
    ((¬ ∃ rest, args = ["i-" ++ rest]) → args.length ≠ 2 → args.length ≠ 3 →
      runSSH w args =
        { events := [Event.print ("Error: invalid command\n" ++ usageText ++ "\n")],
          exitCode := 1 }) ∧
    ((runSSH w args).exitCode = 1 ↔
      (¬ ∃ rest, args = ["i-" ++ rest]) ∧ args.length ≠ 2 ∧ args.length ≠ 3) := by
  have hrun := runSSH_eq_report w args
  refine ⟨hrun, ?_, ?_, dispatch_identifier_iff args, dispatch_roleProfile_iff args,
    dispatch_invalid_iff args, ?_, ?_, ?_, ?_, ?_⟩
  · rw [hrun]; exact report_events _
  · rw [hrun]; exact report_exitCode_zero _
  · intro instanceID rest ha hi
    have hd := (dispatch_identifier_iff args instanceID).2 ⟨ha, rest, hi⟩
    rw [hrun, hd]; rfl
  · intro env role ha
    have hd := (dispatch_roleProfile_iff args env role "").2 (Or.inl ⟨ha, rfl⟩)
    rw [hrun, hd]; rfl
  · intro env role profile ha
    have hd := (dispatch_roleProfile_iff args env role profile).2 (Or.inr ha)
    rw [hrun, hd]; rfl
  · intro h1 h2 h3
    have hd := (dispatch_invalid_iff args).2 ⟨h1, h2, h3⟩
    rw [hrun, hd]; rfl
  · rw [hrun, report_exitCode_one, ← dispatch_invalid_iff]
    constructor
    · rintro ⟨message, Help, hr⟩
      cases hd : dispatch args with
      | identifier instanceID =>
        rw [hd] at hr
        exact absurd hr (searchEnvs_result_ne_invalid w _ _ _ message Help)
      | roleProfile env role profile =>
        rw [hd] at hr
        exact absurd hr (sshByRoleProfile_result_ne_invalid w env role profile message Help)
      | invalid => rfl
    · intro hd
      rw [hd]
      exact ⟨_, _, rfl⟩

/-- Witness for C6: no argument at all is an invalid command, reported with the usage
text and exit status 1 without any call to a collaborator. -/
theorem runSSH_dispatch_witness :
    runSSH stgOnlyWorld [] =
      { events := [Event.print ("Error: invalid command\n" ++ usageText ++ "\n")],
        exitCode := 1 } :=
  (runSSH_dispatch stgOnlyWorld []).2.2.2.2.2.2.2.2.2.1
    (fun ⟨_, e⟩ => List.noConfusion e) (by decide) (by decide)

/-- Counterexample for C6: three arguments of which the third is the empty string
select Role/Profile mode with the empty profile, so that mode is not selected by two
arguments only; the run is the run of the first two arguments alone. -/
theorem runSSH_three_arguments_empty_profile :
    ["dev", "appserver", ""].length = 3 ∧
    dispatch ["dev", "appserver", ""] = Mode.roleProfile "dev" "appserver" "" ∧
    (∀ w : World, runSSH w ["dev", "appserver", ""] =
      report (sshByRoleProfile w "dev" "appserver" "")) ∧
    (∀ w : World, runSSH w ["dev", "appserver", ""] = runSSH w ["dev", "appserver"]) ∧
    ¬ ((∃ env role, dispatch ["dev", "appserver", ""] = Mode.roleProfile env role "") ↔
      ["dev", "appserver", ""].length = 2) :=
  ⟨rfl, rfl, fun _ => rfl, fun _ => rfl,
    fun h => absurd (h.1 ⟨"dev", "appserver", rfl⟩) (by decide)⟩

/-! ## Role/Profile mode -/

theorem prompts_append (xs ys : List Event) : prompts (xs ++ ys) = prompts xs ++ prompts ys := by
  induction xs with
  | nil => rfl
  | cons x xs ih => cases x <;> simp [prompts, ih]

theorem sessions_append (xs ys : List Event) :
    sessions (xs ++ ys) = sessions xs ++ sessions ys := by
  induction xs with
  | nil => rfl
  | cons x xs ih => cases x <;> simp [sessions, ih]

theorem queriedEnvs_append (xs ys : List Event) :
    queriedEnvs (xs ++ ys) = queriedEnvs xs ++ queriedEnvs ys := by
  induction xs with
  | nil => rfl
  | cons x xs ih => cases x <;> simp [queriedEnvs, ih]

/-- C7: after a successful connection and query, `sshByRoleProfile` returns the error
`no instances found` exactly when the provider result holds no instance at all
(reservations that are all empty included); in that case the picker is not invoked
and no session is launched, and whenever the result holds an instance the picker is
invoked. -/
theorem sshByRoleProfile_notFound (w : World) (env role profile : String)
    (result : DescribeInstancesOutput)
    (hc : w.newEC2Client env = none)
    (hq : w.describeInstances env (getRoleProfileFilters role profile) = Except.ok result) :
    ((sshByRoleProfile w env role profile).result = Result.err Error.notFound ↔
      (allInstances result).length = 0) ∧
    ((allInstances result).length = 0 →
      prompts (sshByRoleProfile w env role profile).events = [] ∧
      sessions (sshByRoleProfile w env role profile).events = []) ∧
    ((allInstances result).length ≠ 0 →
      ∃ items, prompts (sshByRoleProfile w env role profile).events = [items]) := by
  obtain ⟨header, rows, h, -⟩ := getPrivateIPsAndTextLines_ok w result
  generalize rows ++ [""] = items at h
  by_cases hn : allInstances result = []
  · have hrun : sshByRoleProfile w env role profile =
        { events := [Event.connect env,
            Event.describe env (getRoleProfileFilters role profile)],
          result := Result.err Error.notFound } := by
      simp [sshByRoleProfile, hc, hq, h, hn]
    rw [hrun]
    simp [hn, prompts, sessions]
  · have hm : List.map privateIPOrNA (allInstances result) ≠ [] := by
      simpa using hn
    have hl : (allInstances result).length ≠ 0 := by
      simpa using hn
    have hrun : ∃ events res, res ≠ Result.err Error.notFound ∧
        prompts events = [] ∧
        sshByRoleProfile w env role profile =
          { events := [Event.connect env,
              Event.describe env (getRoleProfileFilters role profile),
              Event.prompt ("  " ++ header) items] ++ events,
            result := res } := by
      simp only [sshByRoleProfile, hc, hq, h, hm, if_false]
      cases hp : w.promptRun ("  " ++ header) items with
      | error e =>
        exact ⟨[], Result.err (Error.selection e), by simp, rfl, by simp⟩
      | ok index =>
        cases hg : (List.map privateIPOrNA (allInstances result)).get? index with
        | none =>
          exact ⟨[], Result.panic Panic.indexOutOfRange, by simp, rfl, by dsimp only; rw [hg]; rfl⟩
        | some privateIP =>
          cases hs : w.sshRun privateIP with
          | none =>
            exact ⟨[Event.ssh privateIP], Result.ok, by simp, rfl, by dsimp only; rw [hg]; dsimp only; rw [hs]; rfl⟩
          | some e =>
            exact ⟨[Event.ssh privateIP], Result.err (Error.session e), by simp, rfl,
              by dsimp only; rw [hg]; dsimp only; rw [hs]; rfl⟩
    obtain ⟨events, res, hres, hpr, hrun⟩ := hrun
    rw [hrun]
    refine ⟨?_, ?_, ?_⟩
    · simp [hl, hres]
    · intro h0; exact absurd h0 hl
    · intro _
      refine ⟨items, ?_⟩
      rw [prompts_append, hpr]
      rfl

/-- Witness for C7: a result whose reservations are all empty. -/
theorem sshByRoleProfile_notFound_witness :
    (sshByRoleProfile emptyGroupsWorld "dev" "appserver" "").result =
      Result.err Error.notFound ∧
    prompts (sshByRoleProfile emptyGroupsWorld "dev" "appserver" "").events = [] ∧
    sessions (sshByRoleProfile emptyGroupsWorld "dev" "appserver" "").events = [] :=
  have h := sshByRoleProfile_notFound emptyGroupsWorld "dev" "appserver" ""
    { Reservations := [{ Instances := [] }, { Instances := [] }] } rfl rfl
  ⟨h.1.2 (by decide), h.2.1 (by decide)⟩

/-! ## Identifier mode, and the rows offered to the picker: evaluations -/

/-- C1: with a match in `stg` only and a session that ends without error,
`sshByInstanceID` queries `prod`, `dev` and `stg`, launches the session, and then
goes on to query `sandbox`. -/
theorem sshByInstanceID_queries_sandbox_after_match :
    stgOnlyWorld.sshRun "10.0.0.7" = none ∧
    sessions (sshByInstanceID stgOnlyWorld "i-0123456789abcdef0").events = ["10.0.0.7"] ∧
    queriedEnvs (sshByInstanceID stgOnlyWorld "i-0123456789abcdef0").events =
      ["prod", "dev", "stg", "sandbox"] := by
  decide

/-- C2: with a match in `dev` and a session to its address that ends without error,
`sshByInstanceID` returns the error `no instances found`, and the process exits with
status 255. -/
theorem sshByInstanceID_notFound_after_session :
    devOnlyWorld.sshRun "10.0.0.5" = none ∧
    sessions (sshByInstanceID devOnlyWorld "i-0123456789abcdef0").events = ["10.0.0.5"] ∧
    (sshByInstanceID devOnlyWorld "i-0123456789abcdef0").result = Result.err Error.notFound ∧
    (runSSH devOnlyWorld ["i-0123456789abcdef0"]).exitCode = 255 := by
  decide

set_option maxRecDepth 100000 in
/-- C3: for a provider result with three instances, `getPrivateIPsAndTextLines`
returns three addresses and five lines (the header, three rows and an empty string),
and `sshByRoleProfile` offers four items to the picker, the last one empty. -/
theorem getPrivateIPsAndTextLines_three :
    getPrivateIPsAndTextLines (threeWorld 0) threeInstances =
      Except.ok (["10.0.0.1", "10.0.0.2", "10.0.0.3"],
        ["Name InstanceID          PrivateIP Role      Type     State   Uptime",
         "web1 i-0123456789abcdef0 10.0.0.1  appserver t3.micro running 3 days ago",
         "web2 i-0123456789abcdef0 10.0.0.2  appserver t3.micro running 3 days ago",
         "web3 i-0123456789abcdef0 10.0.0.3  appserver t3.micro running 3 days ago",
         ""]) ∧
    prompts (sshByRoleProfile (threeWorld 0) "dev" "appserver" "").events =
      [["web1 i-0123456789abcdef0 10.0.0.1  appserver t3.micro running 3 days ago",
        "web2 i-0123456789abcdef0 10.0.0.2  appserver t3.micro running 3 days ago",
        "web3 i-0123456789abcdef0 10.0.0.3  appserver t3.micro running 3 days ago",
        ""]] :=
  ⟨rfl, by decide⟩

set_option maxRecDepth 100000 in
/-- C4: for a provider result with three instances the picker is offered four items;
when it returns row index 3, the last item, the lookup of the address is out of range
and no session is launched, while row index 2 launches a session to the third
address. -/
theorem sshByRoleProfile_last_row_out_of_range :
    ((prompts (sshByRoleProfile (threeWorld 3) "dev" "appserver" "").events).map
      List.length) = [4] ∧
    (sshByRoleProfile (threeWorld 3) "dev" "appserver" "").result =
      Result.panic Panic.indexOutOfRange ∧
    sessions (sshByRoleProfile (threeWorld 3) "dev" "appserver" "").events = [] ∧
    (sshByRoleProfile (threeWorld 2) "dev" "appserver" "").result = Result.ok ∧
    sessions (sshByRoleProfile (threeWorld 2) "dev" "appserver" "").events = ["10.0.0.3"] := by
  decide

/-! ## Identifier mode, and the rows offered to the picker: in general -/

theorem searchEnvs_result_ne_ok (w : World) (filters : List Filter) (envs : List String)
    (events : List Event) : (searchEnvs w filters envs events).result ≠ Result.ok := by
  induction envs generalizing events with
  | nil => simp [searchEnvs]
  | cons env envs ih =>
    unfold searchEnvs
    split
    · simp
    · split
      · simp
      · split
        · exact ih _
        · split
          · exact ih _
          · split
            · simp
            · split
              · simp
              · split
                · simp
                · exact ih _

/-- `sshByInstanceID` never returns Go's `nil` error, whatever the collaborators do. -/
theorem sshByInstanceID_result_ne_ok (w : World) (instanceID : String) :
    (sshByInstanceID w instanceID).result ≠ Result.ok :=
  searchEnvs_result_ne_ok w _ _ _

theorem searchEnvs_notFound_queries (w : World) (filters : List Filter) (envs : List String)
    (events : List Event)
    (h : (searchEnvs w filters envs events).result = Result.err Error.notFound) :
    queriedEnvs (searchEnvs w filters envs events).events = queriedEnvs events ++ envs := by
  induction envs generalizing events with
  | nil => simp [searchEnvs]
  | cons env envs ih =>
    cases hc : w.newEC2Client env with
    | some e => simp [searchEnvs, hc] at h
    | none =>
      cases hq : w.describeInstances env filters with
      | error e => simp [searchEnvs, hc, hq] at h
      | ok result =>
        cases hr : result.Reservations with
        | nil =>
          simp only [searchEnvs, hc, hq, hr] at h ⊢
          rw [ih _ h]
          simp [queriedEnvs_append, queriedEnvs]
        | cons reservation rest =>
          cases hi : reservation.Instances with
          | nil =>
            simp only [searchEnvs, hc, hq, hr, hi] at h ⊢
            rw [ih _ h]
            simp [queriedEnvs_append, queriedEnvs]
          | cons inst insts =>
            cases hd : deref inst.PrivateIpAddress with
            | error p => simp [searchEnvs, hc, hq, hr, hi, hd] at h
            | ok privateIP =>
              cases hg : getInstanceInfoString w inst with
              | error p => simp [searchEnvs, hc, hq, hr, hi, hd, hg] at h
              | ok info =>
                cases hs : w.sshRun privateIP with
                | some e => simp [searchEnvs, hc, hq, hr, hi, hd, hg, hs] at h
                | none =>
                  simp only [searchEnvs, hc, hq, hr, hi, hd, hg, hs] at h ⊢
                  rw [ih _ h]
                  simp [queriedEnvs_append, queriedEnvs]

/-- Whenever `sshByInstanceID` returns `no instances found`, it has queried all four
environments, whether or not one of them held a match. -/
theorem sshByInstanceID_notFound_queries (w : World) (instanceID : String)
    (h : (sshByInstanceID w instanceID).result = Result.err Error.notFound) :
    queriedEnvs (sshByInstanceID w instanceID).events = ["prod", "dev", "stg", "sandbox"] := by
  have := searchEnvs_notFound_queries w (getInstanceIDFilters instanceID) envsToSearch [] h
  simpa [sshByInstanceID, queriedEnvs, envsToSearch] using this

/-- For every provider result the line list of `getPrivateIPsAndTextLines` is the
header, one row per line break written for the instances, and the empty string that
follows the last newline: with `N` instances whose fields hold no line break, the
picker is offered `N + 1` items, the last of them empty. -/
theorem getPrivateIPsAndTextLines_items (w : World) (result : DescribeInstancesOutput) :
    ∃ privateIPs header rows,
      getPrivateIPsAndTextLines w result =
        Except.ok (privateIPs, header :: (rows ++ [""])) ∧
      privateIPs.length = (allInstances result).length ∧
      rows.length =
        (allInstances result).length + ((allInstances result).map (fieldBreaks w)).sum := by
  obtain ⟨header, rows, h, hl⟩ := getPrivateIPsAndTextLines_ok w result
  exact ⟨_, header, rows, h, by simp, hl⟩

/-- Whenever the provider result holds `N` instances, `N` at least 1, and the picker
returns the row index `N`, which is the index of one of the items it was offered,
`sshByRoleProfile` panics on the lookup of the address. -/
theorem sshByRoleProfile_index_out_of_range (w : World) (env role profile : String)
    (result : DescribeInstancesOutput)
    (hc : w.newEC2Client env = none)
    (hq : w.describeInstances env (getRoleProfileFilters role profile) = Except.ok result)
    (hn : allInstances result ≠ [])
    (hp : ∀ label items, w.promptRun label items = Except.ok (allInstances result).length) :
    (sshByRoleProfile w env role profile).result = Result.panic Panic.indexOutOfRange ∧
    ∃ items, prompts (sshByRoleProfile w env role profile).events = [items] ∧
      (allInstances result).length < items.length := by
  obtain ⟨header, rows, h, hl⟩ := getPrivateIPsAndTextLines_ok w result
  have hm : List.map privateIPOrNA (allInstances result) ≠ [] := by
    simpa using hn
  have hg : (List.map privateIPOrNA (allInstances result)).get? (allInstances result).length =
      none := by
    simp
  have hrun : sshByRoleProfile w env role profile =
      { events := [Event.connect env,
          Event.describe env (getRoleProfileFilters role profile),
          Event.prompt ("  " ++ header) (rows ++ [""])],
        result := Result.panic Panic.indexOutOfRange } := by
    simp only [sshByRoleProfile, hc, hq, h, hm, if_false, hp]
    rw [hg]
    rfl
  rw [hrun]
  refine ⟨rfl, rows ++ [""], rfl, ?_⟩
  rw [List.length_append, List.length_singleton]
  omega

end Assh
